import Mathlib

/-!
Verification of the Capo scheduling core against its specification.

The embedding covers:
* the conflict detector of the project settings screen
  (`checkConflicts`, `checkDependencyConflicts`);
* the quote extraction pipeline (`processQuote`);
* the WhatsApp notification workflow (`handleButtonResponse`);
* the daily dispatch (`checkDailyTasks`: grouping and per-worker summary).

Dates are modelled as `Int` day codes: the JavaScript sources store dates as
ISO `YYYY-MM-DD` strings, compare them through `Date` objects (whose order
coincides with the day code order) and add durations with
`setDate(getDate() + days)`, which is day-code addition.  A missing or empty
(falsy) field is modelled as `Option.none` or as the empty string.
-/

namespace Capo

/-! ### JavaScript primitives -/

/-- Value of the longest digit prefix of a character list, accumulator style,
mirroring how `parseInt` consumes leading decimal digits. -/
def digitsVal : List Char → Nat → Nat
  | [], acc => acc
  | c :: cs, acc => if c.isDigit then digitsVal cs (acc * 10 + (c.toNat - 48)) else acc

/-- Whether a character list starts with a decimal digit. -/
def startsWithDigit : List Char → Bool
  | [] => false
  | c :: _ => c.isDigit

/-- Model of the JavaScript expression `parseInt(s) || 0`: skip leading
spaces, an optional sign, read the leading digits; yields `0` when no digit
follows (`parseInt` returns `NaN` there, and `NaN || 0` is `0`). -/
def jsParseIntOr0 (s : String) : Int :=
  let cs := s.data.dropWhile (fun c => c = ' ')
  match cs with
  | '-' :: rest => if startsWithDigit rest then -(digitsVal rest 0 : Int) else 0
  | '+' :: rest => if startsWithDigit rest then (digitsVal rest 0 : Int) else 0
  | _ => if startsWithDigit cs then (digitsVal cs 0 : Int) else 0

/-! ### Conflict detector (ProjectSettingsScreen) -/

/-- A task as seen by the conflict detector: `startDate` is the stored date
string (absent or empty string modelled as `none`), `duration` is the raw
duration string typed in the duration field (empty string = falsy). -/
structure UITask where
  id : String
  title : String
  assigneePhone : String
  status : String
  startDate : Option Int
  duration : String
deriving DecidableEq, Repr

/-- Start day of a task (the `new Date(t.startDate)` value). -/
def taskStart (t : UITask) : Int := t.startDate.getD 0

/-- End day of a task: `tEnd.setDate(tStart.getDate() + (parseInt(t.duration) || 0))`. -/
def taskEnd (t : UITask) : Int := taskStart t + jsParseIntOr0 t.duration

/-- The callback passed to `tasks.find` inside `checkConflicts`. -/
def conflictTest (phone : String) (start finish : Int) (t : UITask) : Bool :=
  if t.assigneePhone != phone || t.status == "done" then false
  else if t.startDate.isNone || t.duration == "" then false
  else decide (start < taskEnd t ∧ finish > taskStart t)

/-- `checkConflicts(phone, startDate, duration)` from the project settings
screen: guards on truthiness of the three inputs, builds the candidate
half-open interval and returns the first task of the same worker whose
interval overlaps it. -/
def checkConflicts (phone : String) (startDate : Option Int) (duration : String)
    (tasks : List UITask) : Option UITask :=
  if phone == "" || startDate.isNone || duration == "" then none
  else
    let start := startDate.getD 0
    let days := jsParseIntOr0 duration
    let finish := start + days
    tasks.find? (conflictTest phone start finish)

/-- The loop body of `checkDependencyConflicts`: walk the dependency ids in
order, resolve each id in `tasks`, and return the first resolved, dated
dependency whose end is strictly after `start` (the source guard
`depTask && depTask.startDate && depTask.duration` is the truthiness
conjunction rendered here as `∧`). -/
def depLoop (tasks : List UITask) (start : Int) : List String → Option UITask
  | [] => none
  | depId :: rest =>
    match tasks.find? (fun t => t.id == depId) with
    | some depTask =>
      if depTask.startDate.isSome ∧ depTask.duration ≠ "" then
        if start < taskEnd depTask then some depTask
        else depLoop tasks start rest
      else depLoop tasks start rest
    | none => depLoop tasks start rest

/-- `checkDependencyConflicts(startDate, dependencyIds)` from the project
settings screen. -/
def checkDependencyConflicts (startDate : Option Int) (dependencyIds : List String)
    (tasks : List UITask) : Option UITask :=
  match startDate with
  | none => none
  | some start =>
    if dependencyIds.isEmpty then none
    else depLoop tasks start dependencyIds

/-! ### Conflict detector: supporting lemmas -/

theorem conflictTest_eq_true_iff (phone : String) (s e : Int) (t : UITask) :
    conflictTest phone s e t = true ↔
      (t.assigneePhone = phone ∧ t.status ≠ "done" ∧ t.startDate.isSome ∧ t.duration ≠ ""
        ∧ s < taskEnd t ∧ e > taskStart t) := by
  unfold conflictTest
  split_ifs with h1 h2
  · simp only [Bool.or_eq_true, bne_iff_ne, ne_eq, beq_iff_eq] at h1
    constructor
    · intro h; exact absurd h (by simp)
    · rintro ⟨hp, hs, -⟩
      rcases h1 with h1 | h1
      · exact absurd hp h1
      · exact absurd h1 hs
  · simp only [Bool.or_eq_true, Option.isNone_iff_eq_none, beq_iff_eq] at h2
    constructor
    · intro h; exact absurd h (by simp)
    · rintro ⟨-, -, hsd, hdur, -⟩
      rcases h2 with h2 | h2
      · rw [h2] at hsd; exact absurd hsd (by simp)
      · exact absurd h2 hdur
  · simp only [Bool.or_eq_true, bne_iff_ne, ne_eq, beq_iff_eq] at h1
    push_neg at h1
    simp only [Bool.or_eq_true, Option.isNone_iff_eq_none, beq_iff_eq] at h2
    push_neg at h2
    simp only [decide_eq_true_eq]
    constructor
    · rintro ⟨ho1, ho2⟩
      exact ⟨h1.1, h1.2, Option.isSome_iff_ne_none.mpr h2.1, h2.2, ho1, ho2⟩
    · rintro ⟨-, -, -, -, ho1, ho2⟩; exact ⟨ho1, ho2⟩

theorem checkConflicts_eq_find (phone : String) (s : Int) (dur : String)
    (tasks : List UITask) (hp : phone ≠ "") (hd : dur ≠ "") :
    checkConflicts phone (some s) dur tasks
      = tasks.find? (conflictTest phone s (s + jsParseIntOr0 dur)) := by
  have hc : (phone == "" || (some s : Option Int).isNone || dur == "") = false := by
    simp [hp, hd]
  unfold checkConflicts
  rw [hc]
  rfl

/-! ### Claim theorems: C1, C3, C4 -/

/-- C1: for a candidate with a truthy worker contact, start date and duration,
`checkConflicts` reports a conflict exactly when some task of the same worker
that is not done and carries both a start date and a duration satisfies
`candidateStart < otherEnd ∧ candidateEnd > otherStart` (half-open overlap);
moreover any reported task itself satisfies the strict overlap test, so
intervals that merely touch are never reported. -/
theorem c1_scheduleConflict_iff (phone : String) (s : Int) (dur : String)
    (tasks : List UITask) (hp : phone ≠ "") (hd : dur ≠ "") :
    ((checkConflicts phone (some s) dur tasks).isSome ↔
      ∃ t ∈ tasks, t.assigneePhone = phone ∧ t.status ≠ "done" ∧ t.startDate.isSome
        ∧ t.duration ≠ "" ∧ s < taskEnd t ∧ s + jsParseIntOr0 dur > taskStart t)
    ∧ (∀ t, checkConflicts phone (some s) dur tasks = some t →
        s < taskEnd t ∧ s + jsParseIntOr0 dur > taskStart t) := by
  have hfind := checkConflicts_eq_find phone s dur tasks hp hd
  constructor
  · rw [hfind, List.find?_isSome]
    constructor
    · rintro ⟨t, ht, hc⟩
      rw [conflictTest_eq_true_iff] at hc
      exact ⟨t, ht, hc⟩
    · rintro ⟨t, ht, hc⟩
      exact ⟨t, ht, (conflictTest_eq_true_iff phone s _ t).mpr hc⟩
  · intro t ht
    rw [hfind] at ht
    have hc := List.find?_some ht
    rw [conflictTest_eq_true_iff] at hc
    exact ⟨hc.2.2.2.2.1, hc.2.2.2.2.2⟩

/-- Witness for C1 at the spec's own example: worker task with start day 0 and
duration 3 days, candidate starting at day 2 with duration 2 days overlaps. -/
theorem c1_scheduleConflict_iff_witness :
    (checkConflicts "911" (some 2) "2"
      [{ id := "a", title := "Task A", assigneePhone := "911", status := "backlog",
         startDate := some 0, duration := "3" }]).isSome :=
  (c1_scheduleConflict_iff "911" 2 "2"
    [{ id := "a", title := "Task A", assigneePhone := "911", status := "backlog",
       startDate := some 0, duration := "3" }] (by decide) (by decide)).1.mpr (by decide)

/-- C4: `checkConflicts` only ever reports a task of the same contact that is
not done and has both a start date and a duration; conversely, whenever some
task of the same contact that is not done and is fully dated overlaps the
candidate, a conflict is reported (so every such task is effectively
scanned, and done or undated tasks are never reported). -/
theorem c4_scheduleConflict_scan (phone : String) (s : Int) (dur : String)
    (tasks : List UITask) (hp : phone ≠ "") (hd : dur ≠ "") :
    (∀ t, checkConflicts phone (some s) dur tasks = some t →
        t ∈ tasks ∧ t.assigneePhone = phone ∧ t.status ≠ "done"
          ∧ t.startDate.isSome ∧ t.duration ≠ "")
    ∧ ((∃ t ∈ tasks, t.assigneePhone = phone ∧ t.status ≠ "done" ∧ t.startDate.isSome
          ∧ t.duration ≠ "" ∧ s < taskEnd t ∧ s + jsParseIntOr0 dur > taskStart t) →
        (checkConflicts phone (some s) dur tasks).isSome) := by
  have hfind := checkConflicts_eq_find phone s dur tasks hp hd
  constructor
  · intro t ht
    rw [hfind] at ht
    have hmem := List.mem_of_find?_eq_some ht
    have hc := List.find?_some ht
    rw [conflictTest_eq_true_iff] at hc
    exact ⟨hmem, hc.1, hc.2.1, hc.2.2.1, hc.2.2.2.1⟩
  · rintro ⟨t, ht, hc⟩
    rw [hfind, List.find?_isSome]
    exact ⟨t, ht, (conflictTest_eq_true_iff phone s _ t).mpr hc⟩

/-- Witness for C4: with one done task and one overlapping active task, a
conflict is reported. -/
theorem c4_scheduleConflict_scan_witness :
    (checkConflicts "922" (some 1) "1"
      [{ id := "d", title := "Done one", assigneePhone := "922", status := "done",
         startDate := some 0, duration := "9" },
       { id := "b", title := "Task B", assigneePhone := "922", status := "in-progress",
         startDate := some 0, duration := "3" }]).isSome :=
  (c4_scheduleConflict_scan "922" 1 "1"
    [{ id := "d", title := "Done one", assigneePhone := "922", status := "done",
       startDate := some 0, duration := "9" },
     { id := "b", title := "Task B", assigneePhone := "922", status := "in-progress",
       startDate := some 0, duration := "3" }] (by decide) (by decide)).2 (by decide)

theorem depLoop_eq_findSome? (tasks : List UITask) (s : Int) (ids : List String) :
    depLoop tasks s ids = ids.findSome? (fun depId =>
      match tasks.find? (fun t => t.id == depId) with
      | some depTask =>
        if depTask.startDate.isSome ∧ depTask.duration ≠ "" ∧ s < taskEnd depTask
        then some depTask else none
      | none => none) := by
  induction ids with
  | nil => rfl
  | cons depId rest ih =>
    cases hf : tasks.find? (fun t => t.id == depId) with
    | none =>
      simp only [depLoop, hf, List.findSome?]
      exact ih
    | some depTask =>
      simp only [depLoop, hf, List.findSome?]
      by_cases hd : depTask.startDate.isSome ∧ depTask.duration ≠ ""
      · rw [if_pos hd]
        by_cases hlt : s < taskEnd depTask
        · rw [if_pos hlt, if_pos ⟨hd.1, hd.2, hlt⟩]
        · rw [if_neg hlt, if_neg (by rintro ⟨-, -, hc⟩; exact hlt hc)]
          exact ih
      · rw [if_neg hd, if_neg (by rintro ⟨h1, h2, -⟩; exact hd ⟨h1, h2⟩)]
        exact ih

/-- C3: `checkDependencyConflicts` returns the first dependency, in the order
the ids were supplied, whose resolved task has a start date and a duration and
whose end is strictly after the candidate start; it returns `none` on an empty
dependency list, on a missing candidate start date, and when every resolvable
dependency lacks a start date or a duration. -/
theorem c3_dependencyConflict_first (s : Int) (ids : List String) (tasks : List UITask) :
    (checkDependencyConflicts (some s) ids tasks
      = ids.findSome? (fun depId =>
          match tasks.find? (fun t => t.id == depId) with
          | some depTask =>
            if depTask.startDate.isSome ∧ depTask.duration ≠ "" ∧ s < taskEnd depTask
            then some depTask else none
          | none => none))
    ∧ checkDependencyConflicts (some s) [] tasks = none
    ∧ checkDependencyConflicts none ids tasks = none
    ∧ ((∀ depId ∈ ids, ∀ t, tasks.find? (fun u => u.id == depId) = some t →
          t.startDate = none ∨ t.duration = "") →
        checkDependencyConflicts (some s) ids tasks = none) := by
  have hmain : checkDependencyConflicts (some s) ids tasks
      = ids.findSome? (fun depId =>
          match tasks.find? (fun t => t.id == depId) with
          | some depTask =>
            if depTask.startDate.isSome ∧ depTask.duration ≠ "" ∧ s < taskEnd depTask
            then some depTask else none
          | none => none) := by
    cases ids with
    | nil => rfl
    | cons a l =>
      show (if (a :: l).isEmpty = true then none else depLoop tasks s (a :: l)) = _
      rw [if_neg (by simp)]
      exact depLoop_eq_findSome? tasks s (a :: l)
  refine ⟨hmain, rfl, rfl, ?_⟩
  intro hall
  rw [hmain, List.findSome?_eq_none_iff]
  intro depId hmem
  cases hf : tasks.find? (fun t => t.id == depId) with
  | none => simp
  | some t =>
    simp only
    rw [if_neg]
    rintro ⟨h1, h2, -⟩
    rcases hall depId hmem t hf with h | h
    · rw [h] at h1; exact absurd h1 (by simp)
    · exact h2 h

/-- Witness for C3 at the spec's own example: dependency with start day 0 and
duration 5 blocks a candidate starting at day 4, and it is returned. -/
theorem c3_dependencyConflict_first_witness :
    checkDependencyConflicts (some 4) ["d"]
      [{ id := "d", title := "Dep D", assigneePhone := "933", status := "backlog",
         startDate := some 0, duration := "5" }]
      = some { id := "d", title := "Dep D", assigneePhone := "933", status := "backlog",
               startDate := some 0, duration := "5" } :=
  (c3_dependencyConflict_first 4 ["d"]
    [{ id := "d", title := "Dep D", assigneePhone := "933", status := "backlog",
       startDate := some 0, duration := "5" }]).1.trans (by decide)

/-! ### Quote extraction pipeline (functions/index.js, `processQuote`) -/

/-- The extraction request record, a task created with `assignee = AI_BOT`
and a quote URL (the empty string models a missing or falsy `quoteUrl`). -/
structure QuoteRequest where
  status : String
  title : String
  description : String
  quoteUrl : String
  assignee : String
  projectId : String
  projectStartDate : String
  projectDeadline : String
deriving DecidableEq, Repr

/-- One task descriptor in the JSON returned by the extraction capability. -/
structure ExtractedTask where
  title : String
  description : String
  steps : List String
  startDate : String
  dueDate : String
  estimatedHours : Option Int
deriving DecidableEq, Repr

/-- A derived task record written by the pipeline batch. -/
structure DerivedTask where
  title : String
  description : String
  startDate : String
  dueDate : String
  estimatedHours : Option Int
  projectId : String
  status : String
  isNew : Bool
  originalQuoteId : String
deriving DecidableEq, Repr

/-- One `ai_logs` event as appended by `logAIEvent`. -/
structure LogEvent where
  projectId : String
  taskId : String
  step : String
  detail : String
  type : String
deriving DecidableEq, Repr

def mkLog (projectId taskId step detail ty : String) : LogEvent :=
  { projectId := projectId, taskId := taskId, step := step, detail := detail, type := ty }

/-- Materialization of one descriptor (the `batch.set` payload): steps are
folded into the description as an enumerated appendix, `estimatedHours || null`
maps falsy hour counts to null. -/
def materializeTask (projectId requestId : String) (t : ExtractedTask) : DerivedTask :=
  { title := t.title
    description :=
      if t.steps ≠ [] then
        t.description ++ "\n\nSteps:\n" ++ String.intercalate "\n" (t.steps.map (fun x => "- " ++ x))
      else t.description
    startDate := t.startDate
    dueDate := t.dueDate
    estimatedHours := match t.estimatedHours with
      | some h => if h = 0 then none else some h
      | none => none
    projectId := projectId
    status := "backlog"
    isNew := true
    originalQuoteId := requestId }

/-- The observable persistent state touched by the pipeline: the request
record itself, the derived task records, and the append-only event log. -/
structure PipelineState where
  request : QuoteRequest
  derivedTasks : List DerivedTask
  logs : List LogEvent
deriving DecidableEq, Repr

/-- A Firestore write batch operation used by `processQuote`. -/
inductive BatchOp where
  | setTask (t : DerivedTask)
  | updateRequest (status title description : String)
deriving DecidableEq, Repr

def applyOp (st : PipelineState) : BatchOp → PipelineState
  | .setTask t => { st with derivedTasks := st.derivedTasks ++ [t] }
  | .updateRequest s ti d =>
      { st with request := { st.request with status := s, title := ti, description := d } }

/-- Committing a batch applies every buffered operation; an aborted commit
applies none (Firestore batch semantics). -/
def commitBatch (st : PipelineState) (ops : List BatchOp) : PipelineState :=
  ops.foldl applyOp st

/-- Outcome of the external extraction call including JSON parsing: either an
exception (call failed or output unparseable) or a descriptor list. -/
inductive AIOutcome where
  | failure (msg : String)
  | success (tasks : List ExtractedTask)
deriving DecidableEq, Repr

def addLog (st : PipelineState) (e : LogEvent) : PipelineState :=
  { st with logs := st.logs ++ [e] }

/-- `processQuote`, the `onDocumentCreated` handler on `tasks/{taskId}`:
trigger guard, missing-credentials early return, extraction, batch
materialization (all derived tasks plus the terminal `done` update in one
batch), and the catch handler that flips the request to `error`.
`today` and `today30` stand for the formatted current date and current date
plus 30 days used when the project window is absent; `commitOk` tells whether
`batch.commit()` succeeded and `commitErrMsg` is the exception message when it
did not. -/
def processQuote (requestId : String) (req : QuoteRequest) (today today30 : String)
    (hasKey : Bool) (ai : AIOutcome) (commitOk : Bool) (commitErrMsg : String) :
    PipelineState :=
  let st0 : PipelineState := { request := req, derivedTasks := [], logs := [] }
  if req.status ≠ "backlog" ∨ req.quoteUrl = "" ∨ req.assignee ≠ "AI_BOT" then st0
  else if ¬ hasKey then
    { st0 with request :=
        { req with description := "System Error: Missing OpenAI Key", status := "backlog" } }
  else
    let projectStart := if req.projectStartDate = "" then today else req.projectStartDate
    let projectEnd := if req.projectDeadline = "" then today30 else req.projectDeadline
    let st1 := addLog (addLog st0
      (mkLog req.projectId requestId "Process Started"
        "Analyzing quote for task extraction..." "info"))
      (mkLog req.projectId requestId "Context Loaded"
        ("Project Start: " ++ projectStart ++ ", Deadline: " ++ projectEnd) "info")
    match ai with
    | .failure msg =>
        addLog { st1 with request :=
            { req with description := "Failed to process quote: " ++ msg, status := "error" } }
          (mkLog req.projectId requestId "Error" msg "error")
    | .success ts =>
        let st2 := addLog (addLog st1
          (mkLog req.projectId requestId "AI Response"
            "Received response from OpenAI. Parsing..." "info"))
          (mkLog req.projectId requestId "Extraction Complete"
            ("Extracted " ++ toString ts.length ++ " tasks.") "info")
        let ops := ts.map (fun t => BatchOp.setTask (materializeTask req.projectId requestId t))
          ++ [BatchOp.updateRequest "done" "Quote Processed"
                ("Extracted " ++ toString ts.length ++ " tasks from quote.")]
        let st3 := addLog st2
          (mkLog req.projectId requestId "Process Complete"
            "All tasks created successfully." "success")
        if commitOk then commitBatch st3 ops
        else addLog { st3 with request :=
            { st3.request with
                description := "Failed to process quote: " ++ commitErrMsg,
                status := "error" } }
          (mkLog req.projectId requestId "Error" commitErrMsg "error")

theorem commitBatch_setTasks (st : PipelineState) (f : ExtractedTask → DerivedTask)
    (ts : List ExtractedTask) :
    commitBatch st (ts.map (fun t => BatchOp.setTask (f t)))
      = { st with derivedTasks := st.derivedTasks ++ ts.map f } := by
  induction ts generalizing st with
  | nil => simp [commitBatch]
  | cons a l ih =>
    simp only [List.map_cons, commitBatch, List.foldl_cons]
    rw [show List.foldl applyOp (applyOp st (BatchOp.setTask (f a))) (l.map fun t => BatchOp.setTask (f t))
          = commitBatch (applyOp st (BatchOp.setTask (f a))) (l.map fun t => BatchOp.setTask (f t)) from rfl]
    rw [ih]
    simp [applyOp]

theorem commitBatch_ops (st : PipelineState) (f : ExtractedTask → DerivedTask)
    (ts : List ExtractedTask) (s ti d : String) :
    commitBatch st (ts.map (fun t => BatchOp.setTask (f t)) ++ [BatchOp.updateRequest s ti d])
      = { request := { st.request with status := s, title := ti, description := d },
          derivedTasks := st.derivedTasks ++ ts.map f,
          logs := st.logs } := by
  unfold commitBatch
  rw [List.foldl_append]
  rw [show List.foldl applyOp st (ts.map fun t => BatchOp.setTask (f t))
        = commitBatch st (ts.map fun t => BatchOp.setTask (f t)) from rfl]
  rw [commitBatch_setTasks]
  simp [applyOp]

/-! ### Claim theorems: C2, C7, C8 -/

/-- C2: processing a valid extraction request with credentials present is
all-or-nothing — either the request ends `done` and every extracted
descriptor is materialized (the whole list, exactly), or the request ends
`error` and no derived task is visible; `done` never coexists with a partial
subset of the derived tasks. -/
theorem c2_extraction_atomic (requestId : String) (req : QuoteRequest)
    (today today30 : String) (ai : AIOutcome) (commitOk : Bool) (msg : String)
    (h1 : req.status = "backlog") (h2 : req.quoteUrl ≠ "") (h3 : req.assignee = "AI_BOT") :
    ((processQuote requestId req today today30 true ai commitOk msg).request.status = "done"
        ∧ ∃ ts, ai = .success ts ∧ commitOk = true
            ∧ (processQuote requestId req today today30 true ai commitOk msg).derivedTasks
                = ts.map (materializeTask req.projectId requestId))
    ∨ ((processQuote requestId req today today30 true ai commitOk msg).request.status = "error"
        ∧ (processQuote requestId req today today30 true ai commitOk msg).derivedTasks = []) := by
  unfold processQuote
  rw [if_neg (by push_neg; exact ⟨h1, h2, h3⟩)]
  rw [if_neg (by simp)]
  cases ai with
  | failure m =>
    right
    simp [addLog]
  | success ts =>
    by_cases hc : commitOk
    · left
      simp only [hc, if_true]
      rw [commitBatch_ops]
      refine ⟨rfl, ts, rfl, by trivial, ?_⟩
      simp [addLog]
    · right
      simp [hc, addLog]

/-- Witness for C2: a concrete successful run ends with status `done` and the
single extracted task materialized. -/
theorem c2_extraction_atomic_witness :
    (processQuote "q1"
      { status := "backlog", title := "Quote", description := "", quoteUrl := "http",
        assignee := "AI_BOT", projectId := "p1", projectStartDate := "2024-01-01",
        projectDeadline := "2024-01-31" }
      "2024-01-01" "2024-01-31" true
      (.success [{ title := "Install Drywall", description := "walls", steps := [],
                   startDate := "2024-01-02", dueDate := "2024-01-05",
                   estimatedHours := some 8 }]) true "").request.status = "done" := by
  rcases c2_extraction_atomic "q1"
      { status := "backlog", title := "Quote", description := "", quoteUrl := "http",
        assignee := "AI_BOT", projectId := "p1", projectStartDate := "2024-01-01",
        projectDeadline := "2024-01-31" }
      "2024-01-01" "2024-01-31"
      (.success [{ title := "Install Drywall", description := "walls", steps := [],
                   startDate := "2024-01-02", dueDate := "2024-01-05",
                   estimatedHours := some 8 }]) true "" rfl (by decide) rfl with
    ⟨hdone, -⟩ | ⟨herr, -⟩
  · exact hdone
  · exact absurd herr (by decide)

/-- C7: when the extraction capability's credentials are absent, a valid
extraction request keeps status `backlog` (retryable), is not flipped to
`error`, and no derived task is created. -/
theorem c7_missing_key_backlog (requestId : String) (req : QuoteRequest)
    (today today30 : String) (ai : AIOutcome) (commitOk : Bool) (msg : String)
    (h1 : req.status = "backlog") (h2 : req.quoteUrl ≠ "") (h3 : req.assignee = "AI_BOT") :
    (processQuote requestId req today today30 false ai commitOk msg).request.status = "backlog"
    ∧ (processQuote requestId req today today30 false ai commitOk msg).request.status ≠ "error"
    ∧ (processQuote requestId req today today30 false ai commitOk msg).derivedTasks = [] := by
  unfold processQuote
  rw [if_neg (by push_neg; exact ⟨h1, h2, h3⟩)]
  rw [if_pos (by simp)]
  refine ⟨rfl, ?_, rfl⟩
  intro hcontra
  have hb : ("backlog" : String) = "error" := hcontra
  exact absurd hb (by decide)

/-- Witness for C7: a concrete valid request processed without credentials
stays in `backlog`. -/
theorem c7_missing_key_backlog_witness :
    (processQuote "q2"
      { status := "backlog", title := "Quote", description := "", quoteUrl := "http",
        assignee := "AI_BOT", projectId := "p1", projectStartDate := "",
        projectDeadline := "" }
      "2024-01-01" "2024-01-31" false (.failure "never called") true "").request.status
      = "backlog" :=
  (c7_missing_key_backlog "q2"
    { status := "backlog", title := "Quote", description := "", quoteUrl := "http",
      assignee := "AI_BOT", projectId := "p1", projectStartDate := "",
      projectDeadline := "" }
    "2024-01-01" "2024-01-31" (.failure "never called") true "" rfl (by decide) rfl).1

/-- C8: a created task record that does not match the trigger predicate
exactly (status `backlog` and assignee `AI_BOT` and a quote URL present) is
ignored: no derived task, no log event, and the record itself unchanged. -/
theorem c8_trigger_guard (requestId : String) (req : QuoteRequest)
    (today today30 : String) (hasKey : Bool) (ai : AIOutcome) (commitOk : Bool) (msg : String)
    (h : ¬ (req.status = "backlog" ∧ req.quoteUrl ≠ "" ∧ req.assignee = "AI_BOT")) :
    processQuote requestId req today today30 hasKey ai commitOk msg
      = { request := req, derivedTasks := [], logs := [] } := by
  unfold processQuote
  rw [if_pos (by tauto)]

/-- Witness for C8: a record created by a human user with no quote URL is left
completely untouched. -/
theorem c8_trigger_guard_witness :
    processQuote "q3"
      { status := "backlog", title := "Fix door", description := "", quoteUrl := "",
        assignee := "Joao", projectId := "p1", projectStartDate := "",
        projectDeadline := "" }
      "2024-01-01" "2024-01-31" true (.success []) true ""
      = { request :=
            { status := "backlog", title := "Fix door", description := "", quoteUrl := "",
              assignee := "Joao", projectId := "p1", projectStartDate := "",
              projectDeadline := "" },
          derivedTasks := [], logs := [] } :=
  c8_trigger_guard "q3"
    { status := "backlog", title := "Fix door", description := "", quoteUrl := "",
      assignee := "Joao", projectId := "p1", projectStartDate := "",
      projectDeadline := "" }
    "2024-01-01" "2024-01-31" true (.success []) true "" (by decide)

/-! ### Notification workflow (functions/index.js, `handleButtonResponse`) -/

/-- A stored task record as read and written by the workflow handlers.
`acceptedAt`/`completedAt` are modelled as presence flags for the server
timestamps the source writes. -/
structure TaskRec where
  id : String
  title : String
  description : String
  estimatedHours : Option Int
  status : String
  acceptedAt : Bool
  completedViaWhatsApp : Bool
  completedAt : Bool
deriving DecidableEq, Repr

/-- One entry of a worker context's `todaysTasks` list. -/
structure CtxTaskRef where
  taskId : String
  projectId : String
  title : String
  position : Nat
deriving DecidableEq, Repr

/-- The `whatsapp_context` document for one worker.  `currentTaskIndex` is
optional because the source reads it as `context.currentTaskIndex || 0`;
`lastMessageAt` is a timestamp counter. -/
structure WaContext where
  phone : String
  assigneeName : String
  todaysTasks : List CtxTaskRef
  currentTaskIndex : Option Nat
  currentTaskId : Option String
  currentProjectId : Option String
  awaitingResponse : Option String
  lastMessageAt : Nat
deriving DecidableEq, Repr

/-- An outbound WhatsApp template message (template name plus positional
parameters). -/
structure SentMsg where
  template : String
  params : List String
deriving DecidableEq, Repr

/-- The state visible to `handleButtonResponse`: the (single) worker's
context document, the tasks collection, and the messages sent so far. -/
structure WaState where
  context : Option WaContext
  tasks : List TaskRec
  sent : List SentMsg
deriving DecidableEq, Repr

/-- Result value of `handleButtonResponse`. -/
inductive BtnResult where
  | handled (action : String)
  | notHandled (reason : String)
deriving DecidableEq, Repr

/-- `db.collection('tasks').doc(id).get()` as a list lookup. -/
def findTask (tasks : List TaskRec) (tid : String) : Option TaskRec :=
  tasks.find? (fun t => t.id == tid)

/-- A Firestore `update` on the task with the given id. -/
def updateTask (tasks : List TaskRec) (tid : String) (f : TaskRec → TaskRec) : List TaskRec :=
  tasks.map (fun t => if t.id == tid then f t else t)

/-- The `String(estimatedHours || '?')` parameter of the start prompt. -/
def hoursParam : Option Int → String
  | some h => if h = 0 then "?" else toString h
  | none => "?"

/-- `sendTaskStartPrompt` message payload. -/
def startPromptMsg (t : TaskRec) : SentMsg :=
  { template := "task_start_prompt",
    params := [t.title, if t.description = "" then "Sem descricao" else t.description,
               hoursParam t.estimatedHours] }

/-- The `status: 'done'` update applied by the done-confirmation branch. -/
def markDone (t : TaskRec) : TaskRec :=
  { t with status := "done", completedViaWhatsApp := true, completedAt := true }

/-- ASCII lowercase of one character, as `toLowerCase` acts on the button
texts in play (which are ASCII). -/
def lowerChar (c : Char) : Char :=
  if c.isUpper then Char.ofNat (c.toNat + 32) else c

/-- Model of `buttonPayload.toLowerCase().trim()`. -/
def normalizePayload (s : String) : String :=
  ⟨(((s.data.map lowerChar).dropWhile (fun c => c = ' ')).reverse.dropWhile
      (fun c => c = ' ')).reverse⟩

/-- `handleButtonResponse(phone, buttonPayload)`: normalizes the payload and
dispatches on the recognized Portuguese button texts, mirroring the source
branch by branch.  Unreachable `none` cases behind an index-in-range guard
are rendered as a not-handled result. -/
def handleButtonResponse (payloadRaw : String) (now : Nat) (st : WaState) :
    WaState × BtnResult :=
  match st.context with
  | none => (st, .notHandled "no_context")
  | some context =>
    let payload := normalizePayload payloadRaw
    if payload = "ver primeira tarefa" then
      match context.todaysTasks with
      | [] => (st, .notHandled "no_tasks")
      | firstTask :: _ =>
        match findTask st.tasks firstTask.taskId with
        | none => (st, .notHandled "task_not_found")
        | some task =>
          ({ st with
              context := some { context with
                currentTaskId := some firstTask.taskId,
                currentProjectId := some firstTask.projectId,
                currentTaskIndex := some 0,
                awaitingResponse := some "task_start_prompt",
                lastMessageAt := now },
              sent := st.sent ++ [startPromptMsg task] },
           .handled "sent_task_prompt")
    else if payload = "comecar agora" ∨ payload = "comecar" then
      match context.currentTaskId with
      | none => (st, .notHandled "no_current_task")
      | some tid =>
        match findTask st.tasks tid with
        | none => (st, .notHandled "task_not_found")
        | some task =>
          ({ context := some { context with
                awaitingResponse := some "completion_check", lastMessageAt := now },
             tasks := updateTask st.tasks tid
               (fun t => { t with status := "in-progress", acceptedAt := true }),
             sent := st.sent ++ [{ template := "task_accepted_confirmation",
                                   params := [task.title] }] },
           .handled "task_started")
    else if payload = "saltar" then
      let nextIndex := context.currentTaskIndex.getD 0 + 1
      if nextIndex ≥ context.todaysTasks.length then
        ({ st with
            context := some { context with
              currentTaskId := none, currentTaskIndex := some nextIndex,
              awaitingResponse := none, lastMessageAt := now },
            sent := st.sent ++ [{ template := "all_tasks_complete", params := [] }] },
         .handled "all_tasks_complete")
      else
        match context.todaysTasks.get? nextIndex with
        | none => (st, .notHandled "next_task_not_found")
        | some nextTask =>
          match findTask st.tasks nextTask.taskId with
          | none => (st, .notHandled "next_task_not_found")
          | some task =>
            ({ st with
                context := some { context with
                  currentTaskId := some nextTask.taskId,
                  currentProjectId := some nextTask.projectId,
                  currentTaskIndex := some nextIndex,
                  awaitingResponse := some "task_start_prompt",
                  lastMessageAt := now },
                sent := st.sent ++ [startPromptMsg task] },
             .handled "skipped_to_next")
    else if payload = "sim, terminei" then
      match context.currentTaskId with
      | none => (st, .notHandled "no_current_task")
      | some tid =>
        match findTask st.tasks tid with
        | none => (st, .notHandled "task_not_found")
        | some _ =>
          let tasks2 := updateTask st.tasks tid markDone
          let st2 := { st with tasks := tasks2 }
          let nextIndex := context.currentTaskIndex.getD 0 + 1
          if nextIndex ≥ context.todaysTasks.length then
            ({ st2 with
                context := some { context with
                  currentTaskId := none, currentTaskIndex := some nextIndex,
                  awaitingResponse := none, lastMessageAt := now },
                sent := st.sent ++ [{ template := "all_tasks_complete", params := [] }] },
             .handled "all_tasks_complete")
          else
            match context.todaysTasks.get? nextIndex with
            | none => (st2, .notHandled "next_task_not_found")
            | some nextTask =>
              match findTask st2.tasks nextTask.taskId with
              | none => (st2, .notHandled "next_task_not_found")
              | some nextData =>
                ({ st2 with
                    context := some { context with
                      currentTaskId := some nextTask.taskId,
                      currentProjectId := some nextTask.projectId,
                      currentTaskIndex := some nextIndex,
                      awaitingResponse := some "task_start_prompt",
                      lastMessageAt := now },
                    sent := st.sent ++ [startPromptMsg nextData] },
                 .handled "task_done_next_presented")
    else if payload = "ainda a trabalhar" then
      ({ st with context := some { context with lastMessageAt := now } },
       .handled "acknowledged_still_working")
    else if payload = "ok" then
      ({ st with context := some { context with lastMessageAt := now } },
       .handled "acknowledged_reminder")
    else (st, .notHandled "unknown_payload")

/-! ### Notification workflow: supporting lemmas -/

theorem findTask_updateTask_self (tasks : List TaskRec) (tid : String)
    (f : TaskRec → TaskRec) (hid : ∀ u, (f u).id = u.id) (t : TaskRec)
    (h : findTask tasks tid = some t) :
    findTask (updateTask tasks tid f) tid = some (f t) := by
  induction tasks with
  | nil => simp [findTask] at h
  | cons a l ih =>
    unfold findTask at h ⊢
    unfold updateTask
    cases ha : a.id == tid with
    | true =>
      simp only [List.find?, ha] at h
      have h2 := Option.some.inj h
      subst h2
      have hfa : ((f a).id == tid) = true := by
        rw [beq_iff_eq, hid a]; exact beq_iff_eq.mp ha
      simp only [List.map_cons]
      rw [if_pos ha]
      simp only [List.find?, hfa]
    | false =>
      simp only [List.find?, ha] at h
      simp only [List.map_cons]
      rw [if_neg (by rw [ha]; decide)]
      simp only [List.find?, ha]
      exact ih h

theorem findTask_updateTask_other (tasks : List TaskRec) (tid k : String)
    (f : TaskRec → TaskRec) (hid : ∀ u, (f u).id = u.id)
    (h : findTask tasks k = none) :
    findTask (updateTask tasks tid f) k = none := by
  unfold findTask at h ⊢
  rw [List.find?_eq_none] at h ⊢
  intro x hx
  unfold updateTask at hx
  simp only [List.mem_map] at hx
  obtain ⟨u, hu, rfl⟩ := hx
  by_cases ht : (u.id == tid) = true
  · rw [if_pos ht]
    have h4 := h u hu
    simp only [beq_iff_eq] at h4 ⊢
    rw [hid u]
    exact h4
  · rw [if_neg ht]
    exact h u hu

/-! ### Claim theorems: C5, C10 -/

/-- A concrete worker context with no current task set, as left by a daily
dispatch whose task list is empty. -/
def c5ctx : WaContext :=
  { phone := "351911", assigneeName := "Ana", todaysTasks := [],
    currentTaskIndex := some 0, currentTaskId := none, currentProjectId := none,
    awaitingResponse := none, lastMessageAt := 0 }

/-- The workflow state around `c5ctx`. -/
def c5st : WaState := { context := some c5ctx, tasks := [], sent := [] }

/-- C5 counterexample: a `saltar` (skip) reply with no `currentTaskId` set is
handled anyway — the handler advances the cursor and answers with the
all-tasks-complete action, changing the context, instead of returning a
not-handled result. -/
theorem c5_skip_counterexample :
    (handleButtonResponse "Saltar" 1 c5st).2 = .handled "all_tasks_complete"
    ∧ c5ctx.currentTaskId = none
    ∧ (handleButtonResponse "Saltar" 1 c5st).1.context ≠ c5st.context := by decide

/-- C5 (amended): the intents whose state-changing precondition is a set
`currentTaskId` — start-now (`comecar agora` / `comecar`) and
done-confirmation (`sim, terminei`) — return a structured not-handled result
and leave the state (context, tasks, sent messages) unchanged when
`currentTaskId` is absent; the skip intent, by contrast, does not require
`currentTaskId`. -/
theorem c5_noncurrent_intent_noop
    (now : Nat) (st : WaState) (ctx : WaContext)
    (hctx : st.context = some ctx) (hcur : ctx.currentTaskId = none) :
    handleButtonResponse "comecar agora" now st = (st, .notHandled "no_current_task")
    ∧ handleButtonResponse "comecar" now st = (st, .notHandled "no_current_task")
    ∧ handleButtonResponse "sim, terminei" now st = (st, .notHandled "no_current_task") := by
  refine ⟨?_, ?_, ?_⟩ <;>
    simp +decide only [handleButtonResponse, hctx, hcur, ite_true, ite_false,
      show normalizePayload "comecar agora" = "comecar agora" from rfl,
      show normalizePayload "comecar" = "comecar" from rfl,
      show normalizePayload "sim, terminei" = "sim, terminei" from rfl]

/-- Witness for C5 (amended): a concrete start-now reply with no current task
is answered not-handled with the state untouched. -/
theorem c5_noncurrent_intent_noop_witness :
    handleButtonResponse "comecar agora" 7 c5st = (c5st, .notHandled "no_current_task") :=
  (c5_noncurrent_intent_noop 7 c5st c5ctx rfl rfl).1

/-- C10: on a done-confirmation whose current task resolves but whose next
`todaysTasks` entry does not, the handler still marks the current task done
(and the write survives), then returns not-handled `next_task_not_found`
with the context — cursor and `currentTaskId` — unchanged and no message
sent. -/
theorem c10_done_confirmation_no_rollback
    (now : Nat) (st : WaState) (ctx : WaContext) (tid : String) (t : TaskRec)
    (nref : CtxTaskRef)
    (hctx : st.context = some ctx)
    (hcur : ctx.currentTaskId = some tid)
    (hfind : findTask st.tasks tid = some t)
    (hlt : ctx.currentTaskIndex.getD 0 + 1 < ctx.todaysTasks.length)
    (hnext : ctx.todaysTasks.get? (ctx.currentTaskIndex.getD 0 + 1) = some nref)
    (hmiss : findTask st.tasks nref.taskId = none) :
    handleButtonResponse "sim, terminei" now st
      = ({ st with tasks := updateTask st.tasks tid markDone },
         .notHandled "next_task_not_found")
    ∧ findTask (updateTask st.tasks tid markDone) tid = some (markDone t)
    ∧ (markDone t).status = "done"
    ∧ ({ st with tasks := updateTask st.tasks tid markDone } : WaState).context
        = st.context := by
  have hmiss2 : findTask (updateTask st.tasks tid markDone) nref.taskId = none :=
    findTask_updateTask_other st.tasks tid nref.taskId markDone (fun u => rfl) hmiss
  refine ⟨?_, findTask_updateTask_self st.tasks tid markDone (fun u => rfl) t hfind,
    rfl, rfl⟩
  have hge : (ctx.todaysTasks.length ≤ ctx.currentTaskIndex.getD 0 + 1) = False :=
    eq_false (by omega)
  simp +decide only [handleButtonResponse, hctx, hcur, hfind, hnext, hmiss2,
    ge_iff_le, hge, ite_true, ite_false,
    show normalizePayload "sim, terminei" = "sim, terminei" from rfl]

/-- A worker context sitting on task `t1` with a dangling second entry `t2`. -/
def c10ctx : WaContext :=
  { phone := "351933", assigneeName := "Ze",
    todaysTasks := [{ taskId := "t1", projectId := "p1", title := "Paint", position := 1 },
                    { taskId := "t2", projectId := "p1", title := "Tile", position := 2 }],
    currentTaskIndex := some 0, currentTaskId := some "t1", currentProjectId := some "p1",
    awaitingResponse := some "completion_check", lastMessageAt := 0 }

/-- The stored record of task `t1`; `t2` has no stored record. -/
def c10task : TaskRec :=
  { id := "t1", title := "Paint", description := "", estimatedHours := some 4,
    status := "in-progress", acceptedAt := true, completedViaWhatsApp := false,
    completedAt := false }

/-- The workflow state around `c10ctx`. -/
def c10st : WaState := { context := some c10ctx, tasks := [c10task], sent := [] }

/-- Witness for C10: on the concrete state the done-confirmation is answered
`next_task_not_found` while `t1` is left marked done. -/
theorem c10_done_confirmation_no_rollback_witness :
    (handleButtonResponse "sim, terminei" 9 c10st).2 = .notHandled "next_task_not_found"
    ∧ findTask (handleButtonResponse "sim, terminei" 9 c10st).1.tasks "t1"
        = some (markDone c10task) := by
  have h := c10_done_confirmation_no_rollback 9 c10st c10ctx "t1" c10task
    { taskId := "t2", projectId := "p1", title := "Tile", position := 2 }
    rfl rfl (by decide) (by decide) (by decide) (by decide)
  refine ⟨?_, ?_⟩
  · rw [h.1]
  · rw [h.1]
    exact h.2.1

/-! ### Daily dispatch (functions/index.js, `checkDailyTasks`) -/

/-- A task document as read by the daily dispatch.  `dueDate` is the stored
ISO date string modelled as a day code (`none` = missing): `localeCompare` on
ISO `YYYY-MM-DD` strings orders them exactly as their day codes. -/
structure DbTask where
  id : String
  title : String
  description : String
  status : String
  assignee : String
  assigneePhone : String
  dueDate : Option Int
  estimatedHours : Option Int
  projectId : String
deriving DecidableEq, Repr

/-- `phone.replace(/\D/g, '')`. -/
def onlyDigits (s : String) : String := ⟨s.data.filter Char.isDigit⟩

/-- The per-task payload pushed into a worker's group by the dispatch loop. -/
structure SummaryTask where
  taskId : String
  projectId : String
  title : String
  description : String
  dueDate : Option Int
  estimatedHours : Option Int
deriving DecidableEq, Repr

/-- Projection of a task document into a group entry (`description || ''` is
the identity here since a missing description is modelled as the empty
string; `estimatedHours || null` maps a falsy hour count to null). -/
def toSummary (t : DbTask) : SummaryTask :=
  { taskId := t.id, projectId := t.projectId, title := t.title,
    description := t.description, dueDate := t.dueDate,
    estimatedHours := match t.estimatedHours with
      | some h => if h = 0 then none else some h
      | none => none }

/-- One entry of the `tasksByPhone` accumulator: the digit-stripped phone
key, the assignee name captured when the key was first seen, and the pushed
tasks in encounter order. -/
structure WorkerGroup where
  phone : String
  assigneeName : String
  tasks : List SummaryTask
deriving DecidableEq, Repr

/-- `tasksByPhone[phone].tasks.push(...)`, creating the key on first use. -/
def addToGroups : List WorkerGroup → String → String → SummaryTask → List WorkerGroup
  | [], phone, name, t => [{ phone := phone, assigneeName := name, tasks := [t] }]
  | g :: gs, phone, name, t =>
    if g.phone = phone then { g with tasks := g.tasks ++ [t] } :: gs
    else g :: addToGroups gs phone name t

/-- The server-side query filter `where('status', '==', 'backlog')`. -/
def backlogTasks (tasks : List DbTask) : List DbTask :=
  tasks.filter (fun t => t.status == "backlog")

/-- The body of the `snapshot.forEach` grouping loop: only documents with a
truthy `assigneePhone` and `assignee` are grouped. -/
def groupStep (gs : List WorkerGroup) (t : DbTask) : List WorkerGroup :=
  if t.assigneePhone ≠ "" ∧ t.assignee ≠ "" then
    addToGroups gs (onlyDigits t.assigneePhone) t.assignee (toSummary t)
  else gs

/-- The grouping phase of `checkDailyTasks`: backlog query then grouping by
digit-stripped worker phone. -/
def buildGroups (tasks : List DbTask) : List WorkerGroup :=
  (backlogTasks tasks).foldl groupStep []

/-- The task list recorded for a phone key (empty when the key is absent). -/
def lookupTasks (gs : List WorkerGroup) (phone : String) : List SummaryTask :=
  match gs.find? (fun g => g.phone == phone) with
  | some g => g.tasks
  | none => []

/-- The `(a, b) => ...` comparator passed to `tasks.sort`: missing due dates
sort last, otherwise due dates compare ascending. -/
def dueCmpInt (a b : SummaryTask) : Int :=
  match a.dueDate with
  | none => 1
  | some da =>
    match b.dueDate with
    | none => -1
    | some db => if da < db then -1 else if db < da then 1 else 0

/-- `a` may come before `b` under the comparator. -/
def dueLe (a b : SummaryTask) : Prop := dueCmpInt a b ≤ 0

instance : DecidableRel dueLe :=
  fun a b => inferInstanceAs (Decidable (dueCmpInt a b ≤ 0))

/-- `tasks.sort(comparator)` as a stable comparator sort. -/
def sortTasks (l : List SummaryTask) : List SummaryTask :=
  List.insertionSort dueLe l

/-- The ordering property the spec asks of the sorted list: due dates
ascending, undated tasks after every dated one. -/
def dueOrdered (a b : SummaryTask) : Prop :=
  (∀ da db, a.dueDate = some da → b.dueDate = some db → da ≤ db)
  ∧ (a.dueDate = none → b.dueDate = none)

/-- One numbered line of the visible summary:
`"${idx + 1}. ${t.title}${dueStr}"`. -/
def taskLine (idx : Nat) (t : SummaryTask) : String :=
  toString (idx + 1) ++ ". " ++ t.title ++
    (match t.dueDate with
     | some d => " (" ++ toString d ++ ")"
     | none => "")

/-- The overflow counter line `... e mais N tarefas`. -/
def overflowLine (n : Nat) : String := "... e mais " ++ toString n ++ " tarefas"

/-- One `todaysTasks` entry written into the worker context. -/
def toCtxRef (idx : Nat) (t : SummaryTask) : CtxTaskRef :=
  { taskId := t.taskId, projectId := t.projectId, title := t.title, position := idx + 1 }

/-- What the per-worker dispatch step produces: the rebuilt context document
and the visible summary lines. -/
structure DispatchResult where
  contextDoc : WaContext
  summaryLines : List String
  taskCount : Nat
deriving DecidableEq, Repr

/-- The per-worker body of `checkDailyTasks`: sort by due date, show at most
5 lines plus an overflow counter, rebuild the context with the full sorted
list and `currentTaskIndex = 0`, report the total count. -/
def dispatchWorker (now : Nat) (phone name : String) (tasks : List SummaryTask) :
    DispatchResult :=
  let sorted := sortTasks tasks
  let maxShow := min sorted.length 5
  let lines := (sorted.take maxShow).enum.map (fun p => taskLine p.1 p.2)
  let lines2 :=
    if sorted.length > maxShow then lines ++ [overflowLine (sorted.length - maxShow)]
    else lines
  let ctxDoc : WaContext :=
    { phone := phone, assigneeName := name,
      todaysTasks := sorted.enum.map (fun p => toCtxRef p.1 p.2),
      currentTaskIndex := some 0, currentTaskId := none, currentProjectId := none,
      awaitingResponse := none, lastMessageAt := now }
  { contextDoc := ctxDoc, summaryLines := lines2, taskCount := tasks.length }

/-! ### Daily dispatch: grouping lemmas -/

theorem lookupTasks_cons (g : WorkerGroup) (gs : List WorkerGroup) (q : String) :
    lookupTasks (g :: gs) q = if g.phone = q then g.tasks else lookupTasks gs q := by
  unfold lookupTasks
  cases hb : g.phone == q with
  | true =>
    simp only [List.find?, hb]
    rw [if_pos (beq_iff_eq.mp hb)]
  | false =>
    simp only [List.find?, hb]
    rw [if_neg (beq_eq_false_iff_ne.mp hb)]

theorem lookupTasks_addToGroups (gs : List WorkerGroup) (p n : String) (t : SummaryTask)
    (q : String) :
    lookupTasks (addToGroups gs p n t) q
      = if q = p then lookupTasks gs q ++ [t] else lookupTasks gs q := by
  induction gs with
  | nil =>
    show lookupTasks [{ phone := p, assigneeName := n, tasks := [t] }] q = _
    rw [lookupTasks_cons]
    by_cases hq : q = p
    · subst hq
      rw [if_pos rfl, if_pos rfl]
      simp [lookupTasks]
    · rw [if_neg (fun h => hq h.symm), if_neg hq]
  | cons g gs ih =>
    show lookupTasks (if g.phone = p then { g with tasks := g.tasks ++ [t] } :: gs
        else g :: addToGroups gs p n t) q = _
    by_cases hg : g.phone = p
    · rw [if_pos hg, lookupTasks_cons, lookupTasks_cons]
      by_cases hq : q = p
      · subst hq
        rw [if_pos hg, if_pos rfl, if_pos hg]
      · have hner : ¬ (g.phone = q) := fun h => hq (h.symm.trans hg)
        rw [if_neg hner, if_neg hq, if_neg hner]
    · rw [if_neg hg, lookupTasks_cons, lookupTasks_cons]
      by_cases hq2 : g.phone = q
      · have hqp : ¬ (q = p) := fun h => hg (hq2.trans h)
        rw [if_pos hq2, if_neg hqp, if_pos hq2]
      · rw [if_neg hq2, if_neg hq2]
        exact ih

theorem lookupTasks_foldl (ts : List DbTask) (gs : List WorkerGroup) (q : String) :
    lookupTasks (ts.foldl groupStep gs) q
      = lookupTasks gs q
        ++ (ts.filter (fun t =>
              (t.assigneePhone != "" && t.assignee != "")
                && (onlyDigits t.assigneePhone == q))).map toSummary := by
  induction ts generalizing gs with
  | nil => simp
  | cons t ts ih =>
    rw [List.foldl_cons, ih]
    by_cases h1 : t.assigneePhone ≠ "" ∧ t.assignee ≠ ""
    · have hb1 : (t.assigneePhone != "" && t.assignee != "") = true := by
        simp [bne_iff_ne, h1.1, h1.2]
      rw [show groupStep gs t
            = addToGroups gs (onlyDigits t.assigneePhone) t.assignee (toSummary t)
          from if_pos h1]
      rw [lookupTasks_addToGroups]
      by_cases h2 : onlyDigits t.assigneePhone = q
      · have hcomb : ((t.assigneePhone != "" && t.assignee != "")
            && (onlyDigits t.assigneePhone == q)) = true := by
          rw [hb1, beq_iff_eq.mpr h2]; rfl
        simp only [List.filter, hcomb]
        rw [if_pos h2.symm]
        simp
      · have hcomb : ((t.assigneePhone != "" && t.assignee != "")
            && (onlyDigits t.assigneePhone == q)) = false := by
          rw [hb1, beq_eq_false_iff_ne.mpr h2]; rfl
        simp only [List.filter, hcomb]
        rw [if_neg (fun h => h2 h.symm)]
    · have hb1 : (t.assigneePhone != "" && t.assignee != "") = false := by
        rcases not_and_or.mp h1 with h | h
        · simp [bne, not_not.mp h]
        · simp [bne, not_not.mp h]
      have hcomb : ((t.assigneePhone != "" && t.assignee != "")
          && (onlyDigits t.assigneePhone == q)) = false := by
        rw [hb1]; rfl
      simp only [List.filter, hcomb]
      rw [show groupStep gs t = gs from if_neg h1]

theorem exists_addToGroups (gs : List WorkerGroup) (p n : String) (t : SummaryTask)
    (q : String) :
    (∃ g ∈ addToGroups gs p n t, g.phone = q) ↔ (∃ g ∈ gs, g.phone = q) ∨ p = q := by
  induction gs with
  | nil =>
    constructor
    · rintro ⟨g, hmem, hq⟩
      rcases List.mem_singleton.mp hmem with rfl
      exact Or.inr hq
    · rintro (⟨g, hmem, -⟩ | hpq)
      · exact absurd hmem (List.not_mem_nil g)
      · exact ⟨{ phone := p, assigneeName := n, tasks := [t] },
          List.mem_singleton.mpr rfl, hpq⟩
  | cons g gs ih =>
    show (∃ g' ∈ (if g.phone = p then { g with tasks := g.tasks ++ [t] } :: gs
        else g :: addToGroups gs p n t), g'.phone = q) ↔ _
    by_cases hg : g.phone = p
    · rw [if_pos hg]
      constructor
      · rintro ⟨g', hmem, hq⟩
        rcases List.mem_cons.mp hmem with rfl | hmem
        · exact Or.inl ⟨g, List.mem_cons_self g gs, hq⟩
        · exact Or.inl ⟨g', List.mem_cons_of_mem g hmem, hq⟩
      · rintro (⟨g', hmem, hq⟩ | hpq)
        · rcases List.mem_cons.mp hmem with rfl | hmem
          · exact ⟨{ g' with tasks := g'.tasks ++ [t] }, List.mem_cons_self _ _, hq⟩
          · exact ⟨g', List.mem_cons_of_mem _ hmem, hq⟩
        · exact ⟨{ g with tasks := g.tasks ++ [t] }, List.mem_cons_self _ _, hg.trans hpq⟩
    · rw [if_neg hg]
      constructor
      · rintro ⟨g', hmem, hq⟩
        rcases List.mem_cons.mp hmem with rfl | hmem
        · exact Or.inl ⟨g', List.mem_cons_self _ _, hq⟩
        · rcases ih.mp ⟨g', hmem, hq⟩ with ⟨g2, h2, hq2⟩ | hpq
          · exact Or.inl ⟨g2, List.mem_cons_of_mem _ h2, hq2⟩
          · exact Or.inr hpq
      · rintro (⟨g', hmem, hq⟩ | hpq)
        · rcases List.mem_cons.mp hmem with rfl | hmem
          · exact ⟨g', List.mem_cons_self _ _, hq⟩
          · rcases ih.mpr (Or.inl ⟨g', hmem, hq⟩) with ⟨g2, h2, hq2⟩
            exact ⟨g2, List.mem_cons_of_mem _ h2, hq2⟩
        · rcases ih.mpr (Or.inr hpq) with ⟨g2, h2, hq2⟩
          exact ⟨g2, List.mem_cons_of_mem _ h2, hq2⟩

theorem exists_group_foldl (ts : List DbTask) (gs : List WorkerGroup) (q : String) :
    (∃ g ∈ ts.foldl groupStep gs, g.phone = q)
      ↔ (∃ g ∈ gs, g.phone = q)
        ∨ ∃ t ∈ ts, (t.assigneePhone ≠ "" ∧ t.assignee ≠ "")
            ∧ onlyDigits t.assigneePhone = q := by
  induction ts generalizing gs with
  | nil => simp
  | cons t ts ih =>
    rw [List.foldl_cons, ih]
    by_cases h1 : t.assigneePhone ≠ "" ∧ t.assignee ≠ ""
    · rw [show groupStep gs t
            = addToGroups gs (onlyDigits t.assigneePhone) t.assignee (toSummary t)
          from if_pos h1]
      rw [exists_addToGroups]
      constructor
      · rintro ((hgs | hpq) | ⟨t', hmem, hp, hq⟩)
        · exact Or.inl hgs
        · exact Or.inr ⟨t, List.mem_cons_self t ts, h1, hpq⟩
        · exact Or.inr ⟨t', List.mem_cons_of_mem _ hmem, hp, hq⟩
      · rintro (hgs | ⟨t', hmem, hp, hq⟩)
        · exact Or.inl (Or.inl hgs)
        · rcases List.mem_cons.mp hmem with rfl | hmem
          · exact Or.inl (Or.inr hq)
          · exact Or.inr ⟨t', hmem, hp, hq⟩
    · rw [show groupStep gs t = gs from if_neg h1]
      constructor
      · rintro (hgs | ⟨t', hmem, hp, hq⟩)
        · exact Or.inl hgs
        · exact Or.inr ⟨t', List.mem_cons_of_mem _ hmem, hp, hq⟩
      · rintro (hgs | ⟨t', hmem, hp, hq⟩)
        · exact Or.inl hgs
        · rcases List.mem_cons.mp hmem with rfl | hmem
          · exact absurd hp h1
          · exact Or.inr ⟨t', hmem, hp, hq⟩

/-! ### Daily dispatch: sorting lemmas -/

theorem dueOrdered_of_dueLe (a b : SummaryTask) (h : dueLe a b) : dueOrdered a b := by
  unfold dueLe dueCmpInt at h
  cases ha : a.dueDate with
  | none => simp only [ha] at h; exact absurd h (by decide)
  | some da =>
    simp only [ha] at h
    cases hb : b.dueDate with
    | none =>
      refine ⟨?_, ?_⟩
      · intro da' db' h1 h2; rw [hb] at h2; cases h2
      · intro h1; rw [ha] at h1; cases h1
    | some db =>
      simp only [hb] at h
      refine ⟨?_, ?_⟩
      · intro da' db' h1 h2
        rw [ha] at h1; rw [hb] at h2
        injection h1 with h1; injection h2 with h2
        subst h1; subst h2
        split_ifs at h with hlt hgt
        · omega
        · omega
        · omega
      · intro h1; rw [ha] at h1; cases h1

theorem dueOrdered_of_not_dueLe (a b : SummaryTask) (h : ¬ dueLe a b) : dueOrdered b a := by
  unfold dueLe dueCmpInt at h
  cases ha : a.dueDate with
  | none =>
    refine ⟨?_, ?_⟩
    · intro db' da' h1 h2; rw [ha] at h2; cases h2
    · intro h1; exact ha
  | some da =>
    simp only [ha] at h
    cases hb : b.dueDate with
    | none => simp only [hb] at h; exact absurd (by decide) h
    | some db =>
      simp only [hb] at h
      refine ⟨?_, ?_⟩
      · intro db' da' h1 h2
        rw [hb] at h1; rw [ha] at h2
        injection h1 with h1; injection h2 with h2
        subst h1; subst h2
        split_ifs at h with hlt hgt
        · omega
        · omega
        · omega
      · intro h1; rw [hb] at h1; cases h1

theorem dueOrdered_trans (a b c : SummaryTask) (h1 : dueOrdered a b)
    (h2 : dueOrdered b c) : dueOrdered a c := by
  refine ⟨?_, ?_⟩
  · intro da dc ha hc
    cases hb : b.dueDate with
    | none =>
      have h3 := h2.2 hb
      rw [hc] at h3; cases h3
    | some db =>
      exact le_trans (h1.1 da db ha hb) (h2.1 db dc hb hc)
  · intro ha
    exact h2.2 (h1.2 ha)

theorem pairwise_orderedInsert (a : SummaryTask) (l : List SummaryTask)
    (h : List.Pairwise dueOrdered l) :
    List.Pairwise dueOrdered (List.orderedInsert dueLe a l) := by
  induction l with
  | nil => simp [List.orderedInsert]
  | cons b t ih =>
    rcases List.pairwise_cons.mp h with ⟨hb, ht⟩
    simp only [List.orderedInsert]
    by_cases hr : dueLe a b
    · rw [if_pos hr]
      refine List.pairwise_cons.mpr ⟨?_, h⟩
      intro c hc
      rcases List.mem_cons.mp hc with rfl | hc
      · exact dueOrdered_of_dueLe a c hr
      · exact dueOrdered_trans a b c (dueOrdered_of_dueLe a b hr) (hb c hc)
    · rw [if_neg hr]
      refine List.pairwise_cons.mpr ⟨?_, ih ht⟩
      intro c hc
      have hmem := (List.perm_orderedInsert dueLe a t).mem_iff.mp hc
      rcases List.mem_cons.mp hmem with rfl | hc2
      · exact dueOrdered_of_not_dueLe c b hr
      · exact hb c hc2

theorem sortTasks_pairwise (l : List SummaryTask) :
    List.Pairwise dueOrdered (sortTasks l) := by
  unfold sortTasks
  induction l with
  | nil => simp [List.insertionSort]
  | cons a t ih =>
    simp only [List.insertionSort]
    exact pairwise_orderedInsert a _ ih

theorem sortTasks_perm (l : List SummaryTask) : List.Perm (sortTasks l) l :=
  List.perm_insertionSort dueLe l

/-! ### Claim theorems: C6, C9 -/

/-- A concrete in-progress task with an assigned worker and contact. -/
def c6task : DbTask :=
  { id := "x1", title := "Grout bathroom", description := "", status := "in-progress",
    assignee := "Bob", assigneePhone := "911 222 333", dueDate := some 3,
    estimatedHours := none, projectId := "p1" }

/-- C6 counterexample: a worker whose only assigned task is `in-progress`
(hence not `done`) does not appear in the daily dispatch at all, because the
dispatch queries only `status == 'backlog'`. -/
theorem c6_counterexample :
    buildGroups [c6task] = []
    ∧ c6task.status ≠ "done" ∧ c6task.assignee ≠ "" ∧ c6task.assigneePhone ≠ "" := by
  decide

/-- C6 (amended): the daily dispatch collects exactly the tasks whose status
is `backlog` (not all non-done tasks) and which carry both an assignee name
and a contact; each contact's group is precisely those backlog tasks, in
encounter order, and a worker appears in the dispatch iff at least one such
backlog task exists for them. -/
theorem c6_daily_dispatch_groups (tasks : List DbTask) (q : String) :
    lookupTasks (buildGroups tasks) q
      = ((backlogTasks tasks).filter (fun t =>
            (t.assigneePhone != "" && t.assignee != "")
              && (onlyDigits t.assigneePhone == q))).map toSummary
    ∧ ((∃ g ∈ buildGroups tasks, g.phone = q)
        ↔ ∃ t ∈ tasks, t.status = "backlog" ∧ t.assigneePhone ≠ "" ∧ t.assignee ≠ ""
            ∧ onlyDigits t.assigneePhone = q) := by
  constructor
  · have h := lookupTasks_foldl (backlogTasks tasks) [] q
    unfold buildGroups
    rw [h]
    simp [lookupTasks]
  · have h := exists_group_foldl (backlogTasks tasks) [] q
    unfold buildGroups
    rw [h]
    constructor
    · rintro (⟨g, hmem, -⟩ | ⟨t, hmem, hp, hq⟩)
      · exact absurd hmem (List.not_mem_nil g)
      · rcases List.mem_filter.mp hmem with ⟨hmem2, hst⟩
        exact ⟨t, hmem2, beq_iff_eq.mp hst, hp.1, hp.2, hq⟩
    · rintro ⟨t, hmem, hst, hp1, hp2, hq⟩
      exact Or.inr ⟨t, List.mem_filter.mpr ⟨hmem, beq_iff_eq.mpr hst⟩, ⟨hp1, hp2⟩, hq⟩

/-- C9: for every worker, the dispatch step sorts the collected list by due
date ascending with undated tasks last (the result is a permutation of the
input, pairwise ordered), rebuilds the context with `todaysTasks` equal to
the full sorted list and `currentTaskIndex = 0` and no current task, and the
visible summary shows the first `min(length, 5)` sorted tasks followed by an
overflow counter line with the remaining count exactly when more than 5
tasks exist. -/
theorem c9_daily_dispatch_worker (now : Nat) (phone name : String)
    (tasks : List SummaryTask) :
    List.Perm (sortTasks tasks) tasks
    ∧ List.Pairwise dueOrdered (sortTasks tasks)
    ∧ (dispatchWorker now phone name tasks).contextDoc.todaysTasks
        = (sortTasks tasks).enum.map (fun p => toCtxRef p.1 p.2)
    ∧ (dispatchWorker now phone name tasks).contextDoc.currentTaskIndex = some 0
    ∧ (dispatchWorker now phone name tasks).contextDoc.currentTaskId = none
    ∧ (dispatchWorker now phone name tasks).taskCount = tasks.length
    ∧ (dispatchWorker now phone name tasks).summaryLines
        = ((sortTasks tasks).take (min tasks.length 5)).enum.map
            (fun p => taskLine p.1 p.2)
          ++ (if 5 < tasks.length then [overflowLine (tasks.length - 5)] else []) := by
  have hperm := sortTasks_perm tasks
  have hlen : (sortTasks tasks).length = tasks.length := hperm.length_eq
  refine ⟨hperm, sortTasks_pairwise tasks, rfl, rfl, rfl, rfl, ?_⟩
  simp only [dispatchWorker]
  rw [hlen]
  by_cases h5 : 5 < tasks.length
  · rw [if_pos (by omega), if_pos h5]
    have hmin : min tasks.length 5 = 5 := by omega
    rw [hmin]
  · rw [if_neg (by omega), if_neg h5, List.append_nil]

end Capo
